import Mathlib

/-
Shallow embedding of the backmeup job-orchestration core.

The Go source is embedded as pure Lean functions:
  * the file system is passed explicitly (a directory is a list of entries,
    a missing directory is `Option.none`); `os.Remove` is modelled as
    dropping the file from the result, and each retention function returns
    the pair `(remaining, deleted)` of matching backup artifacts;
  * `time.Time` / `time.Duration` values are nanosecond counts (`Int`,
    matching Go's `int64` view of both types);
  * Go maps (`map[string]V`) are association lists with overwrite-on-insert
    (`mapInsert` / `mapLookup`);
  * the gocron library is external to the repository, so cron parsing is an
    abstract boolean parameter `cronOk` of `AddJob`, and the body of the
    scheduled closure is embedded as the event trace it produces
    (`jobRunClosure`).
-/

deriving instance DecidableEq for Except

namespace BackMeUp

/-- Go `map[string]V` assignment `m[k] = v`: overwrite the entry if the key is
present, append it otherwise. -/
def mapInsert {β : Type} : List (String × β) → String → β → List (String × β)
  | [], k, v => [(k, v)]
  | (k', v') :: rest, k, v =>
    if k' == k then (k, v) :: rest else (k', v') :: mapInsert rest k v

/-- Go map read `m[k]` returning `(value, ok)`. -/
def mapLookup {β : Type} : List (String × β) → String → Option β
  | [], _ => none
  | (k', v') :: rest, k => if k' == k then some v' else mapLookup rest k

namespace config

/-- `config.RetentionPolicy` (internal/config/config.go): a type tag
(`"count"` or `"days"`) and an integer value. -/
structure RetentionPolicy where
  type : String
  value : Int
deriving DecidableEq

/-- `config.StorageConfig`: the storage type tag and the local root
directory (`Local.Directory`). -/
structure StorageConfig where
  type : String
  directory : String
deriving DecidableEq

/-- `config.JobConfig`, restricted to the fields the orchestration core
reads: name, cron schedule string and retention policy. -/
structure JobConfig where
  name : String
  schedule : String
  retentionPolicy : RetentionPolicy
deriving DecidableEq

end config

namespace retention

/-- One entry of `os.ReadDir`: name, directory flag, and the `FileInfo`
modification time (ns) and size reported by `entry.Info()`. -/
structure DirEntry where
  name : String
  isDir : Bool
  modTime : Int
  size : Int
deriving DecidableEq

/-- `retention.BackupFile`: path, modification time and size. -/
structure BackupFile where
  path : String
  modTime : Int
  size : Int
deriving DecidableEq

/-- The per-pattern check shared by `isBackupFile` and `isBackupDir`:
Go `len(name) > len(pattern) && name[:len(pattern)] == pattern`, on the
underlying character sequences. -/
def matchesPattern (pattern name : String) : Bool :=
  pattern.data.length < name.data.length &&
    name.data.take pattern.data.length == pattern.data

/-- `retention.isBackupFile`: the file-name patterns of backup files. -/
def isBackupFile (filename : String) : Bool :=
  ["pg_backup_", "mysql_backup_"].any (fun pattern => matchesPattern pattern filename)

/-- `retention.isBackupDir`: the directory-name patterns of backup
directories (MinIO backups are stored in directories). -/
def isBackupDir (dirname : String) : Bool :=
  ["minio_backup_"].any (fun pattern => matchesPattern pattern dirname)

/-- `retention.listBackupFiles`: keep directory entries matching the backup
naming patterns, joined with the directory path; everything else is
ignored and left untouched. -/
def listBackupFiles (dir : String) (entries : List DirEntry) : List BackupFile :=
  entries.filterMap (fun entry =>
    if entry.isDir then
      if isBackupDir entry.name then
        some { path := dir ++ "/" ++ entry.name, modTime := entry.modTime, size := entry.size }
      else none
    else
      if isBackupFile entry.name then
        some { path := dir ++ "/" ++ entry.name, modTime := entry.modTime, size := entry.size }
      else none)

/-- The comparator passed to `sort.Slice` in `applyCountBasedRetention`
(`backupFiles[i].ModTime.After(backupFiles[j].ModTime)`), as the total
order "modification time descending". -/
def modTimeDesc (a b : BackupFile) : Prop := b.modTime ≤ a.modTime

instance : DecidableRel modTimeDesc := fun a b => Int.decLe b.modTime a.modTime

instance : IsTotal BackupFile modTimeDesc := ⟨fun a b => le_total b.modTime a.modTime⟩

instance : IsTrans BackupFile modTimeDesc := ⟨fun _ _ _ hab hbc => le_trans hbc hab⟩

/-- Sorting by modification time, newest first (the `sort.Slice` call). -/
def sortByModTimeDesc (backupFiles : List BackupFile) : List BackupFile :=
  backupFiles.insertionSort modTimeDesc

/-- `retention.applyCountBasedRetention` on the listed backup files: if at
most `keepCount` files exist nothing is deleted, otherwise the files are
sorted newest-first and every file from index `keepCount` on is removed.
Returns `(remaining, deleted)`. -/
def applyCountBasedRetention (backupFiles : List BackupFile) (keepCount : Int) :
    List BackupFile × List BackupFile :=
  if (backupFiles.length : Int) ≤ keepCount then
    (backupFiles, [])
  else
    let sorted := sortByModTimeDesc backupFiles
    (sorted.take keepCount.toNat, sorted.drop keepCount.toNat)

/-- Go's `time.AddDate(0, 0, -keepDays)` offset, with a day of 24 hours in
nanoseconds. -/
def nanosPerDay : Int := 86400 * 1000000000

/-- `retention.applyDaysBasedRetention` on the listed backup files: compute
`cutoffTime = now - keepDays` days and delete every file whose modification
time is strictly before it (`file.ModTime.Before(cutoffTime)`). Returns
`(remaining, deleted)`. -/
def applyDaysBasedRetention (backupFiles : List BackupFile) (keepDays : Int) (now : Int) :
    List BackupFile × List BackupFile :=
  let cutoffTime := now - keepDays * nanosPerDay
  (backupFiles.filter (fun file => ¬ file.modTime < cutoffTime),
   backupFiles.filter (fun file => file.modTime < cutoffTime))

/-- The policy-type switch of `retention.ApplyRetentionPolicy`, applied to
the backup files listed from the job directory (each branch of the Go
switch lists the directory itself; the listing is factored out here). -/
def applyPolicy (policyType : String) (value : Int) (now : Int)
    (backupFiles : List BackupFile) : Except String (List BackupFile × List BackupFile) :=
  match policyType with
  | "count" => .ok (applyCountBasedRetention backupFiles value)
  | "days" => .ok (applyDaysBasedRetention backupFiles value now)
  | other => .error ("unsupported retention policy type: " ++ other)

/-- `retention.ApplyRetentionPolicy`: reject non-local storage, treat a
missing job directory (`jobDirListing = none`) as a no-op, otherwise list
the matching backup artifacts of `storage.directory/jobConfig.name` and
apply the configured policy. Returns the remaining and deleted matching
artifacts. -/
def ApplyRetentionPolicy (storage : config.StorageConfig)
    (jobDirListing : Option (List DirEntry)) (jobConfig : config.JobConfig)
    (now : Int) : Except String (List BackupFile × List BackupFile) :=
  if storage.type ≠ "local" then
    .error "only local storage is currently supported"
  else
    match jobDirListing with
    | none => .ok ([], [])
    | some entries =>
      let jobDir := storage.directory ++ "/" ++ jobConfig.name
      applyPolicy jobConfig.retentionPolicy.type jobConfig.retentionPolicy.value now
        (listBackupFiles jobDir entries)

end retention

namespace scheduler

/-- `scheduler.StatusRunning`. -/
def StatusRunning : String := "RUNNING"

/-- `scheduler.StatusPending`. -/
def StatusPending : String := "PENDING"

/-- `scheduler.StatusError`. -/
def StatusError : String := "ERROR"

/-- `scheduler.StatusComplete`. -/
def StatusComplete : String := "COMPLETE"

/-- `scheduler.StatusStopped`. -/
def StatusStopped : String := "STOPPED"

/-- `scheduler.JobScheduler` state, with executors of an abstract type `E`
(`BackupExecutor` is an interface): the tags of the cron entries added to
the wrapped gocron scheduler (`job.Tag(jobName)`), and the `jobs` and
`jobConfigs` maps. -/
structure JobScheduler (E : Type) where
  scheduledJobs : List String
  jobs : List (String × E)
  jobConfigs : List (String × config.JobConfig)
deriving DecidableEq

/-- `scheduler.AddJob`: register the closure with the cron scheduler
(`js.scheduler.Cron(schedule).Do(...)`, whose parse success is the abstract
`cronOk`), tag it with the job name, and store the executor and config in
the maps — a plain map assignment, with no duplicate-name check. -/
def AddJob {E : Type} (cronOk : String → Bool) (js : JobScheduler E)
    (jobConfig : config.JobConfig) (executor : E) : Except String (JobScheduler E) :=
  let jobName := jobConfig.name
  if cronOk jobConfig.schedule then
    .ok { scheduledJobs := js.scheduledJobs ++ [jobName],
          jobs := mapInsert js.jobs jobName executor,
          jobConfigs := mapInsert js.jobConfigs jobName jobConfig }
  else
    .error ("failed to schedule job " ++ jobName)

/-- One observable event of the closure scheduled by `AddJob`: a status
notification sent to every registered callback, or the
`ApplyRetentionPolicy` call. -/
inductive JobEvent where
  | notify (status : String)
  | retentionApplied
deriving DecidableEq

/-- The body of the closure `AddJob` schedules, as the trace of events of
one job run. `execErr` is the result of `executor.Execute(ctx)` and
`retentionErr` the result of `ApplyRetentionPolicy`: notify `RUNNING`;
on executor error notify `ERROR`; on executor success apply retention
(its error is only logged) and then notify `COMPLETE`. -/
def jobRunClosure (execErr : Option String) (retentionErr : Option String) : List JobEvent :=
  [JobEvent.notify StatusRunning] ++
    match execErr, retentionErr with
    | some _, _ => [JobEvent.notify StatusError]
    | none, _ => [JobEvent.retentionApplied, JobEvent.notify StatusComplete]

/-- The statuses notified during a run, in order. -/
def notifiedStatuses (events : List JobEvent) : List String :=
  events.filterMap (fun event =>
    match event with
    | JobEvent.notify status => some status
    | JobEvent.retentionApplied => none)

/-- `scheduler.Stop` notifies every callback with the special `"scheduler"`
job name and the `STOPPED` status. -/
def stopNotification : String × String := ("scheduler", StatusStopped)

end scheduler

namespace server

/-- `server.JobStatus` is a string type. -/
abbrev JobStatus := String

/-- `server.StatusRunning`. -/
def StatusRunning : JobStatus := "RUNNING"

/-- `server.StatusPending`. -/
def StatusPending : JobStatus := "PENDING"

/-- `server.StatusError`. -/
def StatusError : JobStatus := "ERROR"

/-- `server.StatusStopped`. -/
def StatusStopped : JobStatus := "STOPPED"

/-- `server.StatusComplete`. -/
def StatusComplete : JobStatus := "COMPLETE"

/-- `server.JobStatusTracker` state: the job-status map, the last-update
time and the scheduler-running flag. -/
structure JobStatusTracker where
  jobStatuses : List (String × JobStatus)
  statusUpdated : Int
  isSchedulerRunning : Bool
deriving DecidableEq

/-- `server.NewJobStatusTracker` at creation time `now`. -/
def NewJobStatusTracker (now : Int) : JobStatusTracker :=
  { jobStatuses := [], statusUpdated := now, isSchedulerRunning := false }

/-- `JobStatusTracker.UpdateJobStatus` at time `now` (Go calls
`time.Now()` internally). -/
def UpdateJobStatus (jst : JobStatusTracker) (jobName : String) (status : JobStatus)
    (now : Int) : JobStatusTracker :=
  { jst with jobStatuses := mapInsert jst.jobStatuses jobName status, statusUpdated := now }

/-- `JobStatusTracker.SetSchedulerRunning`. -/
def SetSchedulerRunning (jst : JobStatusTracker) (isRunning : Bool) : JobStatusTracker :=
  { jst with isSchedulerRunning := isRunning }

/-- `JobStatusTracker.isHealthy`: false if the scheduler is not running,
false if some tracked job's status is `ERROR`, true otherwise. -/
def isHealthy (jst : JobStatusTracker) : Bool :=
  if !jst.isSchedulerRunning then
    false
  else
    !(jst.jobStatuses.any (fun entry => entry.2 == StatusError))

/-- The status-mapping switch inside the callback that
`server.RegisterJobStatusUpdate` registers: scheduler statuses `RUNNING`,
`PENDING`, `ERROR` and `COMPLETE` map to the corresponding tracker status,
everything else falls through to the `default` branch, `PENDING`. -/
def mapSchedulerStatus (status : String) : JobStatus :=
  if status == scheduler.StatusRunning then StatusRunning
  else if status == scheduler.StatusPending then StatusPending
  else if status == scheduler.StatusError then StatusError
  else if status == scheduler.StatusComplete then StatusComplete
  else StatusPending

/-- The callback registered by `server.RegisterJobStatusUpdate`: map the
scheduler status and record it in the tracker. It never touches
`isSchedulerRunning`. -/
def statusUpdateCallback (jst : JobStatusTracker) (jobName status : String)
    (now : Int) : JobStatusTracker :=
  UpdateJobStatus jst jobName (mapSchedulerStatus status) now

/-- The effect of `HTTPServer.Shutdown` on the tracker:
`s.statusTracker.SetSchedulerRunning(false)`. -/
def Shutdown (jst : JobStatusTracker) : JobStatusTracker :=
  SetSchedulerRunning jst false

/-- `server.JobMetrics` (durations and times in nanoseconds). -/
structure JobMetrics where
  lastRunDuration : Int
  averageRunDuration : Int
  totalRuns : Int
  successfulRuns : Int
  failedRuns : Int
  lastRunTime : Int
  totalBackupSize : Int
  lastBackupSize : Int
deriving DecidableEq

/-- The Go zero value of `JobMetrics` (`metrics = JobMetrics{}`). -/
def JobMetrics.empty : JobMetrics :=
  { lastRunDuration := 0, averageRunDuration := 0, totalRuns := 0, successfulRuns := 0,
    failedRuns := 0, lastRunTime := 0, totalBackupSize := 0, lastBackupSize := 0 }

/-- `server.MetricsCollector` state. -/
structure MetricsCollector where
  metrics : List (String × JobMetrics)
deriving DecidableEq

/-- `server.NewMetricsCollector`. -/
def NewMetricsCollector : MetricsCollector := { metrics := [] }

/-- `MetricsCollector.UpdateJobMetrics` at time `now`: fetch (or zero-init)
the job's metrics, set the last-run fields, increment `totalRuns`, add the
backup size, bump the success or failure counter, then recompute the
average with `(avg*(totalRuns-1) + duration) / totalRuns` — `totalRuns` is
already incremented, and Go's `int64` division truncates toward zero
(`Int.tdiv`). -/
def UpdateJobMetrics (mc : MetricsCollector) (jobName : String) (duration : Int)
    (success : Bool) (backupSize : Int) (now : Int) : MetricsCollector :=
  let metrics := (mapLookup mc.metrics jobName).getD JobMetrics.empty
  let metrics := { metrics with
    lastRunDuration := duration
    totalRuns := metrics.totalRuns + 1
    lastRunTime := now
    lastBackupSize := backupSize
    totalBackupSize := metrics.totalBackupSize + backupSize }
  let metrics :=
    if success then { metrics with successfulRuns := metrics.successfulRuns + 1 }
    else { metrics with failedRuns := metrics.failedRuns + 1 }
  let metrics := { metrics with
    averageRunDuration :=
      Int.tdiv (metrics.averageRunDuration * (metrics.totalRuns - 1) + duration)
        metrics.totalRuns }
  { mc with metrics := mapInsert mc.metrics jobName metrics }

end server

/-- A sample job directory listing with two matching backup files, the
second one more recent. -/
def demoEntries : List retention.DirEntry :=
  [{ name := "pg_backup_1", isDir := false, modTime := 5, size := 0 },
   { name := "pg_backup_2", isDir := false, modTime := 9, size := 0 }]

/-- The older sample artifact as listed from `root/db`. -/
def bfOld : retention.BackupFile := { path := "root/db/pg_backup_1", modTime := 5, size := 0 }

/-- The newer sample artifact as listed from `root/db`. -/
def bfNew : retention.BackupFile := { path := "root/db/pg_backup_2", modTime := 9, size := 0 }

/-- A local storage configuration rooted at `root`. -/
def demoStorage : config.StorageConfig := { type := "local", directory := "root" }

/-- A job named `db` with a `Count(1)` retention policy. -/
def demoCfgCount : config.JobConfig :=
  { name := "db", schedule := "0 0 * * *", retentionPolicy := { type := "count", value := 1 } }

/-- A job named `db` with an `Age(1)` retention policy. -/
def demoCfgDays : config.JobConfig :=
  { name := "db", schedule := "0 0 * * *", retentionPolicy := { type := "days", value := 1 } }

/-- A cron-expression check accepting every schedule string. -/
def cronAlwaysOk : String → Bool := fun _ => true

-- Theorems ------------------------------------------------------------------

/-- `mapLookup` after `mapInsert` at the same key finds the inserted
value. -/
theorem mapLookup_mapInsert_self {β : Type} (m : List (String × β)) (k : String) (v : β) :
    mapLookup (mapInsert m k v) k = some v := by
  induction m with
  | nil => simp [mapInsert, mapLookup]
  | cons hd tl ih =>
    by_cases h : hd.1 == k
    · simp [mapInsert, mapLookup, h]
    · simpa [mapInsert, mapLookup, h] using ih

/-- `applyCountBasedRetention` keeps exactly `min keepCount originalCount`
files, retains only files at least as recent as every deleted one, touches
nothing else (the kept and deleted files are a permutation of the input),
and deletes nothing when at most `keepCount` files exist. -/
theorem applyCount_spec (backupFiles rem del : List retention.BackupFile) (keepCount : Int)
    (hn : 0 ≤ keepCount)
    (h : retention.applyCountBasedRetention backupFiles keepCount = (rem, del)) :
    rem.length = min keepCount.toNat backupFiles.length
      ∧ (rem ++ del).Perm backupFiles
      ∧ (∀ a ∈ rem, ∀ b ∈ del, b.modTime ≤ a.modTime)
      ∧ (backupFiles.length ≤ keepCount.toNat → del = []) := by
  unfold retention.applyCountBasedRetention at h
  split at h
  case isTrue hle =>
    obtain ⟨rfl, rfl⟩ := Prod.mk.injEq .. |>.mp h
    have hlen : backupFiles.length ≤ keepCount.toNat := by omega
    refine ⟨by simp [Nat.min_eq_right hlen], by simp, by simp, fun _ => rfl⟩
  case isFalse hgt =>
    obtain ⟨rfl, rfl⟩ := Prod.mk.injEq .. |>.mp h
    have hperm : (retention.sortByModTimeDesc backupFiles).Perm backupFiles :=
      List.perm_insertionSort retention.modTimeDesc backupFiles
    have hlen : (retention.sortByModTimeDesc backupFiles).length = backupFiles.length :=
      hperm.length_eq
    have hsorted : List.Pairwise retention.modTimeDesc
        (retention.sortByModTimeDesc backupFiles) :=
      List.sorted_insertionSort retention.modTimeDesc backupFiles
    refine ⟨by simp [hlen], ?_, ?_, ?_⟩
    · rw [List.take_append_drop]
      exact hperm
    · have hsplit : List.Pairwise retention.modTimeDesc
          (List.take keepCount.toNat (retention.sortByModTimeDesc backupFiles)
            ++ List.drop keepCount.toNat (retention.sortByModTimeDesc backupFiles)) := by
        rw [List.take_append_drop]
        exact hsorted
      exact fun a ha b hb => (List.pairwise_append.mp hsplit).2.2 a ha b hb
    · intro hle
      omega

/-- `applyDaysBasedRetention` keeps exactly the files with modification
time at or after the cutoff `now - keepDays` days and deletes exactly the
files strictly before it. -/
theorem applyDays_spec (backupFiles rem del : List retention.BackupFile) (keepDays now : Int)
    (h : retention.applyDaysBasedRetention backupFiles keepDays now = (rem, del)) :
    (∀ f ∈ rem, now - keepDays * retention.nanosPerDay ≤ f.modTime)
      ∧ (∀ f ∈ del, f.modTime < now - keepDays * retention.nanosPerDay)
      ∧ (rem ++ del).Perm backupFiles := by
  unfold retention.applyDaysBasedRetention at h
  obtain ⟨rfl, rfl⟩ := Prod.mk.injEq .. |>.mp h
  refine ⟨?_, ?_, ?_⟩
  · intro f hf
    have := (List.mem_filter.mp hf).2
    simp at this
    omega
  · intro f hf
    have := (List.mem_filter.mp hf).2
    simp at this
    omega
  · refine List.perm_append_comm.trans ?_
    have hsplit := List.filter_append_perm
      (fun file => decide (file.modTime < now - keepDays * retention.nanosPerDay)) backupFiles
    convert hsplit using 3
    funext file
    rw [decide_not]

/-- A second count-based application right after the first deletes
nothing: at most `keepCount` files survive the first application. -/
theorem applyCount_idem (backupFiles rem del : List retention.BackupFile) (keepCount : Int)
    (hn : 0 ≤ keepCount)
    (h : retention.applyCountBasedRetention backupFiles keepCount = (rem, del)) :
    retention.applyCountBasedRetention rem keepCount = (rem, []) := by
  have hlen := (applyCount_spec backupFiles rem del keepCount hn h).1
  unfold retention.applyCountBasedRetention
  rw [if_pos]
  rw [hlen]
  have : min keepCount.toNat backupFiles.length ≤ keepCount.toNat := Nat.min_le_left ..
  omega

/-- A second days-based application at the same `now` deletes nothing:
every survivor of the first application is at or after the cutoff. -/
theorem applyDays_idem (backupFiles rem del : List retention.BackupFile) (keepDays now : Int)
    (h : retention.applyDaysBasedRetention backupFiles keepDays now = (rem, del)) :
    retention.applyDaysBasedRetention rem keepDays now = (rem, []) := by
  have hrem := (applyDays_spec backupFiles rem del keepDays now h).1
  have h1 : List.filter
      (fun file => decide (¬ file.modTime < now - keepDays * retention.nanosPerDay)) rem
        = rem := by
    refine List.filter_eq_self.mpr ?_
    intro a ha
    simpa using hrem a ha
  have h2 : List.filter
      (fun file => decide (file.modTime < now - keepDays * retention.nanosPerDay)) rem
        = [] := by
    refine List.filter_eq_nil_iff.mpr ?_
    intro a ha
    simpa using hrem a ha
  unfold retention.applyDaysBasedRetention
  exact Prod.ext h1 h2

/-- C1: after a successful `ApplyRetentionPolicy` call with a `count`
policy of value `n > 0`, the remaining matching artifacts number
`min n originalCount`, together with the deleted ones they are exactly the
original matching artifacts, every retained artifact is at least as recent
as every deleted one, and if at most `n` artifacts existed nothing is
deleted. -/
theorem count_retention_keeps_most_recent
    (storage : config.StorageConfig) (entries : List retention.DirEntry)
    (jobConfig : config.JobConfig) (now : Int)
    (files rem del : List retention.BackupFile)
    (hstore : storage.type = "local")
    (hpol : jobConfig.retentionPolicy.type = "count")
    (hn : 0 < jobConfig.retentionPolicy.value)
    (hfiles : files
      = retention.listBackupFiles (storage.directory ++ "/" ++ jobConfig.name) entries)
    (hres : retention.ApplyRetentionPolicy storage (some entries) jobConfig now
      = Except.ok (rem, del)) :
    rem.length = min jobConfig.retentionPolicy.value.toNat files.length
      ∧ (rem ++ del).Perm files
      ∧ (∀ a ∈ rem, ∀ b ∈ del, b.modTime ≤ a.modTime)
      ∧ (files.length ≤ jobConfig.retentionPolicy.value.toNat → del = []) := by
  simp [retention.ApplyRetentionPolicy, hstore, hpol, retention.applyPolicy] at hres
  exact applyCount_spec files rem del jobConfig.retentionPolicy.value
    (le_of_lt hn) (by rw [hfiles]; exact hres)

/-- C1 witness: two matching artifacts, `Count(1)` retention: the newer
artifact is retained and the older one deleted. -/
theorem count_retention_keeps_most_recent_witness :
    (0 : Int) < demoCfgCount.retentionPolicy.value
      ∧ ([bfNew].length = min demoCfgCount.retentionPolicy.value.toNat [bfOld, bfNew].length
        ∧ ([bfNew] ++ [bfOld]).Perm [bfOld, bfNew]
        ∧ (∀ a ∈ [bfNew], ∀ b ∈ [bfOld], b.modTime ≤ a.modTime)
        ∧ ([bfOld, bfNew].length ≤ demoCfgCount.retentionPolicy.value.toNat
            → [bfOld] = ([] : List retention.BackupFile))) :=
  ⟨by decide, count_retention_keeps_most_recent demoStorage demoEntries demoCfgCount 0
    [bfOld, bfNew] [bfNew] [bfOld] rfl rfl (by decide) (by decide) (by decide)⟩

/-- C2: after a successful `ApplyRetentionPolicy` call with a `days`
policy of value `days > 0`, every remaining matching artifact has
modification time at or after `now - days`, every deleted one was strictly
before it, and together they are exactly the original matching
artifacts. -/
theorem age_retention_cutoff_correct
    (storage : config.StorageConfig) (entries : List retention.DirEntry)
    (jobConfig : config.JobConfig) (now : Int)
    (files rem del : List retention.BackupFile)
    (hstore : storage.type = "local")
    (hpol : jobConfig.retentionPolicy.type = "days")
    (_hd : 0 < jobConfig.retentionPolicy.value)
    (hfiles : files
      = retention.listBackupFiles (storage.directory ++ "/" ++ jobConfig.name) entries)
    (hres : retention.ApplyRetentionPolicy storage (some entries) jobConfig now
      = Except.ok (rem, del)) :
    (∀ f ∈ rem,
        now - jobConfig.retentionPolicy.value * retention.nanosPerDay ≤ f.modTime)
      ∧ (∀ f ∈ del,
        f.modTime < now - jobConfig.retentionPolicy.value * retention.nanosPerDay)
      ∧ (rem ++ del).Perm files := by
  simp [retention.ApplyRetentionPolicy, hstore, hpol, retention.applyPolicy] at hres
  exact applyDays_spec files rem del jobConfig.retentionPolicy.value now
    (by rw [hfiles]; exact hres)

/-- C2 witness: with `Age(1)` and `now` one day and six nanoseconds past
the epoch, the artifact from time 5 is deleted and the one from time 9
(at the cutoff or after) is retained. -/
theorem age_retention_cutoff_correct_witness :
    (0 : Int) < demoCfgDays.retentionPolicy.value
      ∧ ((∀ f ∈ [bfNew],
            (6 + retention.nanosPerDay)
              - demoCfgDays.retentionPolicy.value * retention.nanosPerDay ≤ f.modTime)
        ∧ (∀ f ∈ [bfOld],
            f.modTime < (6 + retention.nanosPerDay)
              - demoCfgDays.retentionPolicy.value * retention.nanosPerDay)
        ∧ ([bfNew] ++ [bfOld]).Perm [bfOld, bfNew]) :=
  ⟨by decide, age_retention_cutoff_correct demoStorage demoEntries demoCfgDays
    (6 + retention.nanosPerDay) [bfOld, bfNew] [bfNew] [bfOld]
    rfl rfl (by decide) (by decide) (by decide)⟩

/-- C8: retention application is idempotent — a second application of the
same policy to the artifacts that survived a successful first application
(no new artifacts, unchanged modification times, same apply time) deletes
nothing. -/
theorem retention_apply_idempotent
    (policyType : String) (value now : Int) (files rem del : List retention.BackupFile)
    (hv : 0 < value)
    (h : retention.applyPolicy policyType value now files = Except.ok (rem, del)) :
    retention.applyPolicy policyType value now rem = Except.ok (rem, []) := by
  by_cases hc : policyType = "count"
  · subst hc
    simp only [retention.applyPolicy, Except.ok.injEq] at h ⊢
    exact applyCount_idem files rem del value (le_of_lt hv) h
  · by_cases hdy : policyType = "days"
    · subst hdy
      simp only [retention.applyPolicy, Except.ok.injEq] at h ⊢
      exact applyDays_idem files rem del value now h
    · simp [retention.applyPolicy, hc, hdy] at h

/-- C8 witness: `Count(1)` on two artifacts deletes the older one; applied
again to the survivor it deletes nothing. -/
theorem retention_apply_idempotent_witness :
    (0 : Int) < 1
      ∧ retention.applyPolicy "count" 1 0 [bfOld, bfNew] = Except.ok ([bfNew], [bfOld])
      ∧ retention.applyPolicy "count" 1 0 [bfNew] = Except.ok ([bfNew], []) :=
  ⟨by decide, by decide,
    retention_apply_idempotent "count" 1 0 [bfOld, bfNew] [bfNew] [bfOld]
      (by decide) (by decide)⟩

/-- C9: with local storage, a job directory that does not exist makes
`ApplyRetentionPolicy` return success with no artifacts listed and no
artifacts deleted, whatever the job's retention policy is. -/
theorem missing_job_dir_is_noop (dirStr : String) (jobConfig : config.JobConfig) (now : Int) :
    retention.ApplyRetentionPolicy { type := "local", directory := dirStr } none jobConfig now
      = Except.ok ([], []) := rfl

/-- C6: `isHealthy` is true exactly when the scheduler-running flag is set
and no tracked job has status `ERROR`; it is recomputed from the tracker
state on each call. -/
theorem isHealthy_iff_running_and_no_error (jst : server.JobStatusTracker) :
    server.isHealthy jst = true ↔
      (jst.isSchedulerRunning = true
        ∧ ∀ entry ∈ jst.jobStatuses, entry.2 ≠ server.StatusError) := by
  by_cases hr : jst.isSchedulerRunning <;>
    simp [server.isHealthy, hr, List.any_eq_true]

/-- C5: in the job-run closure, retention is applied exactly when the
executor returned success; on executor failure the final notified status
is `ERROR`; on success it is `COMPLETE`, and the whole trace — in
particular the final notified status — does not depend on the result of
`ApplyRetentionPolicy`. -/
theorem retention_iff_executor_success (execErr retentionErr : Option String) :
    (scheduler.JobEvent.retentionApplied ∈ scheduler.jobRunClosure execErr retentionErr
        ↔ execErr = none)
      ∧ (scheduler.notifiedStatuses (scheduler.jobRunClosure execErr retentionErr)).getLast?
          = some (match execErr with
                  | some _ => scheduler.StatusError
                  | none => scheduler.StatusComplete)
      ∧ scheduler.jobRunClosure execErr retentionErr
          = scheduler.jobRunClosure execErr none := by
  cases execErr <;>
    simp [scheduler.jobRunClosure, scheduler.notifiedStatuses]

/-- C4 counterexample: with job `db` already registered, a second `AddJob`
call with the same name returns success — not a duplicate-job error — and
the stored executor is replaced (0 becomes 1) while a second cron entry
with the same tag is scheduled. -/
theorem addJob_duplicate_not_rejected_cex :
    scheduler.AddJob cronAlwaysOk
        { scheduledJobs := ["db"], jobs := [("db", (0 : Nat))],
          jobConfigs := [("db", demoCfgCount)] }
        demoCfgCount (1 : Nat)
      = Except.ok { scheduledJobs := ["db", "db"], jobs := [("db", 1)],
                    jobConfigs := [("db", demoCfgCount)] } := by decide

/-- C4 amended: `AddJob` performs no duplicate-name check — whenever the
schedule parses, a call with an already-registered name succeeds,
overwrites the stored executor and config for that name, and adds another
cron entry tagged with it. -/
theorem addJob_duplicate_overwrites {E : Type} (cronOk : String → Bool)
    (js : scheduler.JobScheduler E) (jobConfig : config.JobConfig) (executor : E)
    (h : cronOk jobConfig.schedule = true) :
    ∃ js', scheduler.AddJob cronOk js jobConfig executor = Except.ok js'
      ∧ mapLookup js'.jobs jobConfig.name = some executor
      ∧ mapLookup js'.jobConfigs jobConfig.name = some jobConfig
      ∧ js'.scheduledJobs = js.scheduledJobs ++ [jobConfig.name] := by
  refine ⟨{ scheduledJobs := js.scheduledJobs ++ [jobConfig.name],
            jobs := mapInsert js.jobs jobConfig.name executor,
            jobConfigs := mapInsert js.jobConfigs jobConfig.name jobConfig },
    ?_, mapLookup_mapInsert_self .., mapLookup_mapInsert_self .., rfl⟩
  unfold scheduler.AddJob
  rw [if_pos h]

/-- C4 amended witness: re-adding job `db` with executor 1 over executor 0
succeeds and overwrites. -/
theorem addJob_duplicate_overwrites_witness :
    cronAlwaysOk demoCfgCount.schedule = true
      ∧ ∃ js', scheduler.AddJob cronAlwaysOk
          { scheduledJobs := ["db"], jobs := [("db", (0 : Nat))],
            jobConfigs := [("db", demoCfgCount)] }
          demoCfgCount 1 = Except.ok js'
        ∧ mapLookup js'.jobs demoCfgCount.name = some 1
        ∧ mapLookup js'.jobConfigs demoCfgCount.name = some demoCfgCount
        ∧ js'.scheduledJobs = ["db"] ++ [demoCfgCount.name] :=
  ⟨rfl, addJob_duplicate_overwrites cronAlwaysOk
    { scheduledJobs := ["db"], jobs := [("db", (0 : Nat))],
      jobConfigs := [("db", demoCfgCount)] } demoCfgCount 1 rfl⟩

/-- C7: `UpdateJobMetrics` increments `totalRuns` before the average is
computed, so the divisor `totalRuns` is the post-increment value and is
positive whenever the stored count was non-negative, and the new average
is `(avg * (n - 1) + duration) / n` with `n` the post-increment count;
concretely, three successful runs of 10ms, 20ms and 30ms yield an average
of 20ms, 3 total runs, 3 successful runs and 0 failed runs. -/
theorem metrics_incremental_mean
    (mc : server.MetricsCollector) (jobName : String) (duration : Int) (success : Bool)
    (backupSize now : Int)
    (hruns : 0 ≤ ((mapLookup mc.metrics jobName).getD server.JobMetrics.empty).totalRuns) :
    (∃ m', mapLookup
        (server.UpdateJobMetrics mc jobName duration success backupSize now).metrics jobName
          = some m'
      ∧ m'.totalRuns
          = ((mapLookup mc.metrics jobName).getD server.JobMetrics.empty).totalRuns + 1
      ∧ 0 < m'.totalRuns
      ∧ m'.averageRunDuration
          = Int.tdiv
              (((mapLookup mc.metrics jobName).getD server.JobMetrics.empty).averageRunDuration
                  * (m'.totalRuns - 1) + duration)
              m'.totalRuns)
    ∧ mapLookup (server.UpdateJobMetrics (server.UpdateJobMetrics (server.UpdateJobMetrics
          server.NewMetricsCollector "db" 10000000 true 0 0)
          "db" 20000000 true 0 0) "db" 30000000 true 0 0).metrics "db"
        = some { lastRunDuration := 30000000, averageRunDuration := 20000000, totalRuns := 3,
                 successfulRuns := 3, failedRuns := 0, lastRunTime := 0,
                 totalBackupSize := 0, lastBackupSize := 0 } := by
  constructor
  · unfold server.UpdateJobMetrics
    cases success
    · refine ⟨_, mapLookup_mapInsert_self .., rfl, ?_, rfl⟩
      show 0 < ((mapLookup mc.metrics jobName).getD server.JobMetrics.empty).totalRuns + 1
      omega
    · refine ⟨_, mapLookup_mapInsert_self .., rfl, ?_, rfl⟩
      show 0 < ((mapLookup mc.metrics jobName).getD server.JobMetrics.empty).totalRuns + 1
      omega
  · decide

/-- C7 witness: the first run of job `db` (10ms, success) on a fresh
collector, together with the concrete three-run scenario. -/
theorem metrics_incremental_mean_witness :
    0 ≤ ((mapLookup server.NewMetricsCollector.metrics "db").getD
          server.JobMetrics.empty).totalRuns
      ∧ ((∃ m', mapLookup (server.UpdateJobMetrics server.NewMetricsCollector
            "db" 10000000 true 0 0).metrics "db" = some m'
          ∧ m'.totalRuns = ((mapLookup server.NewMetricsCollector.metrics "db").getD
              server.JobMetrics.empty).totalRuns + 1
          ∧ 0 < m'.totalRuns
          ∧ m'.averageRunDuration
              = Int.tdiv
                  (((mapLookup server.NewMetricsCollector.metrics "db").getD
                      server.JobMetrics.empty).averageRunDuration
                    * (m'.totalRuns - 1) + 10000000)
                  m'.totalRuns)
        ∧ mapLookup (server.UpdateJobMetrics (server.UpdateJobMetrics
              (server.UpdateJobMetrics server.NewMetricsCollector "db" 10000000 true 0 0)
              "db" 20000000 true 0 0) "db" 30000000 true 0 0).metrics "db"
            = some { lastRunDuration := 30000000, averageRunDuration := 20000000,
                     totalRuns := 3, successfulRuns := 3, failedRuns := 0, lastRunTime := 0,
                     totalBackupSize := 0, lastBackupSize := 0 }) :=
  ⟨by decide, metrics_incremental_mean server.NewMetricsCollector "db" 10000000 true 0 0
    (by decide)⟩

/-- C10: the status-mapping callback sends every status string other than
`RUNNING`, `PENDING`, `ERROR` and `COMPLETE` — in particular the `STOPPED`
status that `JobScheduler.Stop` emits for the `scheduler` pseudo-job — to
`PENDING`; processing that notification records the `scheduler` entry as
`PENDING` and leaves `isSchedulerRunning` unchanged, while
`HTTPServer.Shutdown` is what clears the flag. -/
theorem stopped_status_recorded_as_pending
    (jst : server.JobStatusTracker) (now : Int) (s : String)
    (h : s ∉ ["RUNNING", "PENDING", "ERROR", "COMPLETE"]) :
    server.mapSchedulerStatus s = server.StatusPending
      ∧ server.mapSchedulerStatus scheduler.stopNotification.2 = server.StatusPending
      ∧ mapLookup (server.statusUpdateCallback jst scheduler.stopNotification.1
          scheduler.stopNotification.2 now).jobStatuses "scheduler"
            = some server.StatusPending
      ∧ (server.statusUpdateCallback jst scheduler.stopNotification.1
          scheduler.stopNotification.2 now).isSchedulerRunning = jst.isSchedulerRunning
      ∧ (server.Shutdown jst).isSchedulerRunning = false := by
  simp only [List.mem_cons, List.not_mem_nil, or_false, not_or] at h
  obtain ⟨h1, h2, h3, h4⟩ := h
  refine ⟨?_, by decide, ?_, rfl, rfl⟩
  · simp [server.mapSchedulerStatus, scheduler.StatusRunning, scheduler.StatusPending,
      scheduler.StatusError, scheduler.StatusComplete, h1, h2, h3, h4,
      server.StatusPending]
  · exact mapLookup_mapInsert_self ..

/-- C10 witness: `STOPPED` on a fresh tracker. -/
theorem stopped_status_recorded_as_pending_witness :
    "STOPPED" ∉ ["RUNNING", "PENDING", "ERROR", "COMPLETE"]
      ∧ (server.mapSchedulerStatus "STOPPED" = server.StatusPending
        ∧ server.mapSchedulerStatus scheduler.stopNotification.2 = server.StatusPending
        ∧ mapLookup (server.statusUpdateCallback (server.NewJobStatusTracker 0)
            scheduler.stopNotification.1 scheduler.stopNotification.2 0).jobStatuses
              "scheduler" = some server.StatusPending
        ∧ (server.statusUpdateCallback (server.NewJobStatusTracker 0)
            scheduler.stopNotification.1 scheduler.stopNotification.2 0).isSchedulerRunning
              = (server.NewJobStatusTracker 0).isSchedulerRunning
        ∧ (server.Shutdown (server.NewJobStatusTracker 0)).isSchedulerRunning = false) :=
  ⟨by decide, stopped_status_recorded_as_pending (server.NewJobStatusTracker 0) 0 "STOPPED"
    (by decide)⟩

end BackMeUp
